import Mathlib

/-!
Verification of the rag-ops-lab retrieval-augmented answering pipeline.

The repository ships the frontend of the system; the data model below is
embedded from `src/frontend/src/types/api.ts`, the chat streaming state
machine from `src/frontend/src/hooks/use-chat.ts`, the trace filtering from
the traces page, and the upload gate from
`src/frontend/src/features/corpus/upload-zone.tsx`.  Backend components
(retrieval engine, synthesizer, trace recorder, evaluation harness) are not
part of the source tree; where a property is decided by them they are
modelled from the specification, as marked on each definition.
-/

namespace RagOps

/-- Citation record, embedded from `Citation` in `types/api.ts`.  The
JavaScript `number` score is modelled as a rational. -/
structure Citation where
  document_id : Nat
  document_name : String
  chunk_id : Nat
  chunk_index : Nat
  content : String
  page_number : Option Nat
  relevance_score : Rat
deriving DecidableEq, Repr

/-- Message roles, from the `role` union in `ChatMessage` of `types/api.ts`. -/
inductive Role where
  | user
  | assistant
  | system
deriving DecidableEq, Repr

/-- Chat message, embedded from `ChatMessage` in `types/api.ts`.  A `null`
citation list is `none`; a present list is `some`. -/
structure ChatMessage where
  role : Role
  content : String
  citations : Option (List Citation)
  is_refusal : Bool
  refusal_reason : Option String
deriving DecidableEq, Repr

/-- Stream event kinds, from the `type` union of `StreamChunk` in
`types/api.ts`. -/
inductive StreamType where
  | content
  | citation
  | done
  | error
deriving DecidableEq, Repr

/-- Stream chunk, embedded from `StreamChunk` in `types/api.ts`.  Optional
fields are `Option`; an absent (`undefined`) field is `none`. -/
structure StreamChunk where
  type : StreamType
  content : Option String
  citation : Option Citation
  error : Option String
  run_id : Option String
  session_id : Option String
deriving DecidableEq, Repr

/-- Chat hook state, embedded from `ChatState` in `hooks/use-chat.ts`. -/
structure ChatState where
  messages : List ChatMessage
  citations : List Citation
  sessionId : Option String
  isStreaming : Bool
  error : Option String
deriving DecidableEq, Repr

/-- JavaScript `a || b` on optional strings: `null`, `undefined` and the
empty string are falsy. -/
def jsOrStr : Option String → Option String → Option String
  | some s, b => if s.isEmpty then b else some s
  | none, b => b

/-- Update of `msgs[msgs.length - 1]` guarded by `last?.role === "assistant"`,
as in the `content` and `done` branches of `useChat.sendMessage`. -/
def updateLastAssistant (msgs : List ChatMessage) (f : ChatMessage → ChatMessage) :
    List ChatMessage :=
  match msgs.getLast? with
  | some last => if last.role = Role.assistant then msgs.dropLast ++ [f last] else msgs
  | none => msgs

/-- One iteration of the stream-consuming loop of `useChat.sendMessage`
(`hooks/use-chat.ts` lines 98-147), acting on the hook state paired with the
local `collectedCitations` array.  JavaScript truthiness tests on
`chunk.content`, `chunk.citation` and `chunk.error` are modelled explicitly. -/
def applyChunk (sc : ChatState × List Citation) (c : StreamChunk) :
    ChatState × List Citation :=
  let s := sc.1
  let collected := sc.2
  match c.type with
  | StreamType.content =>
    match c.content with
    | some txt =>
      if txt.isEmpty then (s, collected)
      else
        ({ s with
            messages := updateLastAssistant s.messages
              (fun m => { m with content := m.content ++ txt }) },
          collected)
    | none => (s, collected)
  | StreamType.citation =>
    match c.citation with
    | some cit =>
      let collected2 := collected ++ [cit]
      ({ s with citations := collected2 }, collected2)
    | none => (s, collected)
  | StreamType.done =>
    let finalCits : Option (List Citation) :=
      if collected.isEmpty then none else some collected
    ({ s with
        messages := updateLastAssistant s.messages
          (fun m => { m with citations := finalCits }),
        sessionId := jsOrStr c.session_id s.sessionId,
        isStreaming := false },
      collected)
  | StreamType.error =>
    let msg :=
      match c.error with
      | some e => if e.isEmpty then "Unknown error" else e
      | none => "Unknown error"
    ({ s with error := some msg, isStreaming := false }, collected)

/-- Stream consumption of `useChat.sendMessage`: fold the loop body over the
parsed chunks, starting with an empty `collectedCitations` array. -/
def processChunks (s : ChatState) (evs : List StreamChunk) : ChatState × List Citation :=
  evs.foldl applyChunk (s, [])

/-- Effect of the `AbortError` catch branch of `useChat.sendMessage`
(`hooks/use-chat.ts` lines 153-154): only the streaming flag is cleared. -/
def onAbort (s : ChatState) : ChatState :=
  { s with isStreaming := false }

/-- A streaming turn aborted via `useChat.stopStreaming` after `n` chunks were
consumed: the loop has processed the length-`n` prefix of the stream, the
aborted read throws, and the `AbortError` branch runs. -/
def abortedTurn (s : ChatState) (evs : List StreamChunk) (n : Nat) : ChatState :=
  onAbort (processChunks s (evs.take n)).1

/-- The user message constructed by `useChat.sendMessage` (lines 27-33). -/
def userMessage (text : String) : ChatMessage :=
  ⟨Role.user, text, none, false, none⟩

/-- The empty assistant placeholder of `useChat.sendMessage` (lines 43-49). -/
def emptyAssistant : ChatMessage :=
  ⟨Role.assistant, "", none, false, none⟩

/-- JavaScript `!text.trim()`: `trim` strips leading and trailing whitespace,
so the test holds exactly when every character of `text` is whitespace. -/
def jsBlank (s : String) : Bool :=
  s.toList.all Char.isWhitespace

/-- Result of one `sendMessage` call: the resulting hook state, and whether a
network request was issued. -/
structure SendOutcome where
  state : ChatState
  requestSent : Bool
deriving DecidableEq, Repr

/-- Embedding of `useChat.sendMessage` of `hooks/use-chat.ts`, on the happy path where the
stream delivers `evs` and ends normally.  The guard on line 25
(`if (!text.trim() || state.isStreaming) return;`) short-circuits before any
state update or request. -/
def sendMessage (s : ChatState) (text : String) (evs : List StreamChunk) : SendOutcome :=
  if jsBlank text || s.isStreaming then ⟨s, false⟩
  else
    let s1 := { s with
      messages := s.messages ++ [userMessage text],
      citations := ([] : List Citation),
      isStreaming := true,
      error := none }
    let s2 := { s1 with messages := s1.messages ++ [emptyAssistant] }
    let s3 := (processChunks s2 evs).1
    ⟨{ s3 with isStreaming := false }, true⟩

/-- Initial hook state of `useChat` (lines 14-20). -/
def initialChatState : ChatState :=
  ⟨[], [], none, false, none⟩

/-- File metadata seen by `UploadZone.handleFile`: name, MIME type, byte
size. -/
structure FileInfo where
  name : String
  mime : String
  size : Nat
deriving DecidableEq, Repr

/-- Outcome of `UploadZone.handleFile` in `features/corpus/upload-zone.tsx`:
either the upload mutation is issued, or an error toast is shown and nothing
is uploaded. -/
inductive UploadAction where
  | upload
  | rejectType
  | rejectSize
deriving DecidableEq, Repr

/-- The `allowed` MIME-type list of `UploadZone.handleFile` (lines 14-18). -/
def allowedMimes : List String :=
  ["application/pdf", "text/plain", "text/markdown"]

/-- Embedding of `UploadZone.handleFile` (`upload-zone.tsx` lines 12-43): reject unsupported
types first, then oversized files, otherwise issue the upload.  The duplicate
check only warns and still uploads, so it does not affect the outcome. -/
def handleFile (f : FileInfo) : UploadAction :=
  if !(allowedMimes.contains f.mime) && !(f.name.endsWith ".md") then
    UploadAction.rejectType
  else if f.size > 10 * 1024 * 1024 then
    UploadAction.rejectSize
  else
    UploadAction.upload

/-- Trace event kinds, from the `event_type` union of `TraceEventResponse` in
`types/api.ts`. -/
inductive EventType where
  | retrieval
  | tool_call
  | model_call
  | validation
  | error
deriving DecidableEq, Repr

/-- Trace event, embedded from `TraceEventResponse` in `types/api.ts`
(nullable numeric fields are `Option`; the timestamp is an abstract tick). -/
structure TraceEvent where
  event_type : EventType
  event_name : String
  duration_ms : Option Nat
  tokens_in : Option Nat
  tokens_out : Option Nat
  cost_usd : Option Rat
  status : String
  error_message : Option String
  timestamp : Nat
deriving DecidableEq, Repr

/-- Modelled from the spec: an event status "indicates failure"; the frontend
status palette (`status-badge.tsx`) marks `failed` and `error` as failures. -/
def eventFailed (e : TraceEvent) : Bool :=
  e.status == "error" || e.status == "failed"

/-- Derived run summary, embedded from the `summary` object of
`TraceDetailResponse` in `types/api.ts`. -/
structure TraceSummaryTotals where
  total_events : Nat
  total_duration_ms : Nat
  total_tokens : Nat
  total_cost_usd : Rat
  has_errors : Bool
deriving DecidableEq, Repr

/-- Modelled from the spec: the Trace Recorder's store is the sequence of
`record(run_id, event)` calls, in arrival order (the recorder only appends). -/
abbrev Recorder : Type :=
  List (String × TraceEvent)

/-- Modelled from the spec: `record(run_id, event)` appends a TraceEvent to a
Run, creating the Run implicitly on its first event. -/
def record (rid : String) (e : TraceEvent) (r : Recorder) : Recorder :=
  r ++ [(rid, e)]

/-- Events recorded against one run identifier, in arrival order. -/
def eventsOf (rid : String) (r : Recorder) : List TraceEvent :=
  (r.filter (fun p => p.1 == rid)).map Prod.snd

/-- One step of summary derivation: fold a single event into the running
totals.  Null durations, token counts and costs contribute nothing. -/
def addEvent (s : TraceSummaryTotals) (e : TraceEvent) : TraceSummaryTotals :=
  ⟨s.total_events + 1,
    s.total_duration_ms + e.duration_ms.getD 0,
    s.total_tokens + (e.tokens_in.getD 0 + e.tokens_out.getD 0),
    s.total_cost_usd + e.cost_usd.getD 0,
    s.has_errors || eventFailed e⟩

/-- The all-zero summary of a run with no events. -/
def emptySummary : TraceSummaryTotals :=
  ⟨0, 0, 0, 0, false⟩

/-- Modelled from the spec: `summarize(run_id)` derives the totals of
section 4.3 by folding the run's recorded events. -/
def summarize (rid : String) (r : Recorder) : TraceSummaryTotals :=
  (eventsOf rid r).foldl addEvent emptySummary

/-- Trace listing row, embedded from `TraceSummary` in `types/api.ts`
(the fields the traces page reads). -/
structure TraceSummaryRow where
  run_id : String
  session_id : Option String
  event_count : Nat
  status : String
deriving DecidableEq, Repr

/-- Substring test on character lists, the semantics of JavaScript
`String.prototype.includes`. -/
def containsSub : List Char → List Char → Bool
  | [], needle => needle.isEmpty
  | h :: t, needle => needle.isPrefixOf (h :: t) || containsSub t needle

/-- Character-wise lowering, the semantics of JavaScript `toLowerCase` on the
identifiers at hand. -/
def lowerChars (l : List Char) : List Char :=
  l.map Char.toLower

/-- The filter predicate of `TracesPage.filteredTraces` (`pages/chat.tsx`
lines 116-120): the lowered session identifier, if any, or else the lowered
run identifier must contain the lowered filter. -/
def traceMatches (filter : List Char) (t : TraceSummaryRow) : Bool :=
  (match t.session_id with
    | some sid => containsSub (lowerChars sid.toList) filter
    | none => false)
  || containsSub (lowerChars t.run_id.toList) filter

/-- Embedding of `TracesPage.filteredTraces` (`pages/chat.tsx` lines 112-121): with an
empty filter all traces pass; otherwise client-side filtering by
`traceMatches`. -/
def filteredTraces (sessionFilter : String) (traces : List TraceSummaryRow) :
    List TraceSummaryRow :=
  if sessionFilter.isEmpty then traces
  else traces.filter (traceMatches (lowerChars sessionFilter.toList))

/-- A listed trace together with its events, for the event-type filter of the
trace listing. -/
structure TraceRecord where
  row : TraceSummaryRow
  events : List TraceEvent
deriving DecidableEq, Repr

/-- Modelled from the spec: the backend `/api/traces?event_type=...` listing
(`traces.list` in `lib/api.ts` forwards the filter); it keeps the traces
having at least one event of the requested type. -/
def listTracesByType (et : EventType) (recs : List TraceRecord) : List TraceRecord :=
  recs.filter (fun rec => rec.events.any (fun e => decide (e.event_type = et)))

/-- Transcribed from the claim's words, for comparison with the code: a trace
matches the session filter through its session identifier alone. -/
def claimedSessionMatch (filter : String) (t : TraceSummaryRow) : Bool :=
  match t.session_id with
  | some sid => containsSub (lowerChars sid.toList) (lowerChars filter.toList)
  | none => false

/-- A concrete listed trace: its run identifier contains "foo" while its
session identifier does not. -/
def exampleTraceRow : TraceSummaryRow :=
  ⟨"run-foo", some "abc", 1, "ok"⟩

/-- EvalRun lifecycle states, from section 4.4 of the spec and the status
palette of `status-badge.tsx`. -/
inductive EvalStatus where
  | pending
  | running
  | completed
  | failed
  | cancelled
deriving DecidableEq, Repr

/-- Lifecycle happenings that can reach an EvalRun. -/
inductive EvalEvent where
  | start
  | finishAll
  | cancelReq
  | fault
deriving DecidableEq, Repr

/-- Terminal statuses of the EvalRun state machine. -/
def isTerminal : EvalStatus → Bool
  | EvalStatus.completed => true
  | EvalStatus.failed => true
  | EvalStatus.cancelled => true
  | _ => false

/-- Modelled from the spec: the EvalRun state machine of section 4.4.
Transitions not listed there, including any request against a terminal
status, leave the status unchanged. -/
def evalStep : EvalStatus → EvalEvent → EvalStatus
  | EvalStatus.pending, EvalEvent.start => EvalStatus.running
  | EvalStatus.running, EvalEvent.finishAll => EvalStatus.completed
  | EvalStatus.running, EvalEvent.cancelReq => EvalStatus.cancelled
  | EvalStatus.running, EvalEvent.fault => EvalStatus.failed
  | s, _ => s

/-- Retrieved candidate: a chunk reference plus relevance score and upstream
rank position, per section 3 of the spec and the `Citation` wire shape of
`types/api.ts`. -/
structure RetrievedCandidate where
  chunk_id : Nat
  document_id : Nat
  document_name : String
  chunk_index : Nat
  content : String
  page_number : Option Nat
  score : Rat
  rank : Nat
deriving DecidableEq, Repr

/-- The citation built from an evidence item, with the fields of `Citation`
in `types/api.ts`. -/
def citationOf (e : RetrievedCandidate) : Citation :=
  ⟨e.document_id, e.document_name, e.chunk_id, e.chunk_index, e.content,
    e.page_number, e.score⟩

/-- Output of the generation model for one turn, as the Synthesizer of
section 4.2 consumes it: a refusal reason, text pieces each optionally
followed by an evidence tag (the rank index), or a service failure. -/
inductive GenOutcome where
  | refusal (reason : String)
  | answerPieces (pieces : List (String × Option Nat))
  | failure (err : String)
deriving DecidableEq, Repr

/-- All citation tags referenced in the produced text, in order. -/
def tagsOf (pieces : List (String × Option Nat)) : List Nat :=
  pieces.filterMap Prod.snd

/-- Citations for the tags that map into the presented evidence: tag `t`
refers to the evidence item at rank `t`. -/
def validCitations (evidence : List RetrievedCandidate) (tags : List Nat) :
    List Citation :=
  tags.filterMap (fun t => (evidence[t]?).map citationOf)

/-- Result of a completed synthesizer turn: the message, and the
citation-schema validation verdict of section 4.2. -/
structure SynthResult where
  message : ChatMessage
  schema_compliant : Bool
deriving DecidableEq, Repr

/-- Modelled from the spec: the non-streaming Synthesizer `answer` of
section 4.2.  A refusal carries its reason and no citations; an answer
carries the citations of the tags that map into the evidence, and a tag
outside the evidence makes the turn schema-noncompliant while the content is
still returned; a generation-service error propagates as `GenerationFailure`. -/
def answerTurn (evidence : List RetrievedCandidate) (gen : GenOutcome) :
    Except String SynthResult :=
  match gen with
  | GenOutcome.refusal reason =>
    Except.ok ⟨⟨Role.assistant, reason, none, true, some reason⟩, true⟩
  | GenOutcome.answerPieces pieces =>
    let tags := tagsOf pieces
    Except.ok ⟨⟨Role.assistant, String.join (pieces.map Prod.fst),
        some (validCitations evidence tags), false, none⟩,
      tags.all (fun t => decide (t < evidence.length))⟩
  | GenOutcome.failure err => Except.error err

/-- Stream chunk carrying a content delta. -/
def contentChunk (txt : String) : StreamChunk :=
  ⟨StreamType.content, some txt, none, none, none, none⟩

/-- Stream chunk carrying one detected citation. -/
def citationChunk (c : Citation) : StreamChunk :=
  ⟨StreamType.citation, none, some c, none, none, none⟩

/-- Terminal success chunk. -/
def doneChunk : StreamChunk :=
  ⟨StreamType.done, none, none, none, none, none⟩

/-- Terminal failure chunk. -/
def errorChunk (err : String) : StreamChunk :=
  ⟨StreamType.error, none, none, some err, none, none⟩

/-- Events produced for one text piece: its content delta, then a citation
event when its tag maps into the evidence. -/
def pieceEvents (evidence : List RetrievedCandidate) (p : String × Option Nat) :
    List StreamChunk :=
  contentChunk p.1 ::
    (match p.2 with
      | some t =>
        match evidence[t]? with
        | some e => [citationChunk (citationOf e)]
        | none => []
      | none => [])

/-- Modelled from the spec: the streaming Synthesizer variant of section 4.2,
yielding content deltas interleaved with citation events and terminated by a
single `done` chunk, or by an `error` chunk on generation failure. -/
def streamTurn (evidence : List RetrievedCandidate) (gen : GenOutcome) :
    List StreamChunk :=
  match gen with
  | GenOutcome.refusal reason => [contentChunk reason, doneChunk]
  | GenOutcome.answerPieces pieces =>
    (pieces.map (pieceEvents evidence)).flatten ++ [doneChunk]
  | GenOutcome.failure err => [errorChunk err]

/-- Rerank ordering on tagged candidates: strictly higher score first, ties
broken by upstream rank.  On candidates with pairwise distinct ranks this is
exactly the order a stable sort by descending score produces. -/
def rerankRel (a b : RetrievedCandidate) : Prop :=
  b.score < a.score ∨ (a.score = b.score ∧ a.rank ≤ b.rank)

instance : DecidableRel rerankRel := fun a b => by
  unfold rerankRel
  infer_instance

instance : IsTotal RetrievedCandidate rerankRel where
  total a b := by
    rcases lt_trichotomy a.score b.score with h | h | h
    · exact Or.inr (Or.inl h)
    · rcases Nat.le_total a.rank b.rank with hr | hr
      · exact Or.inl (Or.inr ⟨h, hr⟩)
      · exact Or.inr (Or.inr ⟨h.symm, hr⟩)
    · exact Or.inl (Or.inl h)

instance : IsTrans RetrievedCandidate rerankRel where
  trans a b c hab hbc := by
    rcases hab with h1 | ⟨h1e, h1r⟩ <;> rcases hbc with h2 | ⟨h2e, h2r⟩
    · exact Or.inl (lt_trans h2 h1)
    · exact Or.inl (h2e ▸ h1)
    · exact Or.inl (h1e.symm ▸ h2)
    · exact Or.inr ⟨h1e.trans h2e, Nat.le_trans h1r h2r⟩

/-- Tag each stage-1 candidate with its upstream position, the stable
reference order the rerank tie-break must preserve. -/
def tagUpstream (l : List RetrievedCandidate) : List RetrievedCandidate :=
  l.enum.map (fun p => { p.2 with rank := p.1 })

/-- Modelled from the spec: `retrieve` of section 4.1.  Stage-1 candidates
arrive in upstream order; when a reranker is configured they are re-sorted by
relevance with a stable sort, otherwise the stage-1 order passes through
unchanged; the output is truncated to `rerank_top_k`. -/
def retrieve (rerankEnabled : Bool) (rerank_top_k : Nat)
    (stage1 : List RetrievedCandidate) : List RetrievedCandidate :=
  let tagged := tagUpstream stage1
  let ranked := if rerankEnabled then List.insertionSort rerankRel tagged else tagged
  ranked.take rerank_top_k

/-- The upstream tags of the tagged stage-1 list are `0, 1, 2, ...`. -/
theorem tagUpstream_ranks (l : List RetrievedCandidate) :
    (tagUpstream l).map (fun c => c.rank) = List.range l.length := by
  unfold tagUpstream
  rw [List.map_map]
  have hcomp : ((fun c : RetrievedCandidate => c.rank) ∘
      fun p : Nat × RetrievedCandidate => { p.2 with rank := p.1 }) = Prod.fst := rfl
  rw [hcomp, List.enum_map_fst]

/-- Truncation of a rerank-sorted list with pairwise distinct upstream tags:
bounded length, non-increasing scores, and ties in upstream order. -/
theorem rankedTake_props (ranked : List RetrievedCandidate) (k : Nat)
    (hsort : ranked.Pairwise rerankRel)
    (hnd : (ranked.map (fun c => c.rank)).Nodup) :
    (ranked.take k).length ≤ k ∧
    (ranked.take k).Pairwise (fun a b => b.score ≤ a.score) ∧
    (ranked.take k).Pairwise (fun a b => a.score = b.score → a.rank < b.rank) := by
  have hsub : List.Sublist (ranked.take k) ranked := List.take_sublist k ranked
  have hne : ranked.Pairwise (fun a b => a.rank ≠ b.rank) :=
    List.pairwise_map.mp hnd
  refine ⟨List.length_take_le k ranked, ?_, ?_⟩
  · refine List.Pairwise.sublist hsub (hsort.imp ?_)
    intro a b hab
    rcases hab with h | ⟨he, -⟩
    · exact le_of_lt h
    · exact le_of_eq he.symm
  · refine List.Pairwise.sublist hsub ((hsort.and hne).imp ?_)
    intro a b hab heq
    rcases hab with ⟨hlt | ⟨-, hle⟩, hner⟩
    · exact absurd heq (ne_of_gt hlt)
    · exact Nat.lt_of_le_of_ne hle hner

/-- A concrete evidence item used by witnesses. -/
def evA : RetrievedCandidate :=
  ⟨7, 1, "doc", 0, "text", none, 1, 0⟩

/-- A second concrete evidence item used by the stream counterexample. -/
def evB : RetrievedCandidate :=
  ⟨8, 2, "doc2", 1, "more", none, 2, 1⟩

/-- The stream of a concrete two-piece, two-citation turn. -/
def streamEx : List StreamChunk :=
  streamTurn [evA, evB] (GenOutcome.answerPieces [("a", some 0), ("b", some 1)])

end RagOps

namespace RagOps

/-- C9: with whitespace-only input, or while a stream is already in flight,
`sendMessage` returns the state unchanged and sends no request, so at most one
stream is in flight per hook. -/
theorem sendMessage_guard (s : ChatState) (text : String) (evs : List StreamChunk)
    (h : jsBlank text = true ∨ s.isStreaming = true) :
    sendMessage s text evs = ⟨s, false⟩ := by
  unfold sendMessage
  rcases h with h | h <;> simp [h]

/-- C9 witness: sending three spaces from the initial state changes nothing
and issues no request. -/
theorem sendMessage_guard_witness :
    sendMessage initialChatState "   " [] = ⟨initialChatState, false⟩ :=
  sendMessage_guard initialChatState "   " [] (Or.inl (by decide))

/-- C4: aborting a streaming turn after any consumed prefix ignores the rest
of the stream entirely, clears the streaming flag, and retains the partial
assistant content already applied. -/
theorem abortedTurn_spec (s : ChatState) (pfx rest : List StreamChunk) :
    abortedTurn s (pfx ++ rest) pfx.length = onAbort (processChunks s pfx).1 ∧
    (abortedTurn s (pfx ++ rest) pfx.length).isStreaming = false ∧
    (abortedTurn s (pfx ++ rest) pfx.length).messages = (processChunks s pfx).1.messages := by
  have htake : (pfx ++ rest).take pfx.length = pfx := by
    rw [List.take_append_of_le_length (Nat.le_refl _), List.take_length]
  refine ⟨?_, ?_, ?_⟩ <;> simp [abortedTurn, htake, onAbort]

/-- C10: `handleFile` issues the upload exactly when the MIME type is allowed
(or the filename ends in `.md`) and the size is at most 10 MiB; every other
file is rejected with an error and no upload. -/
theorem handleFile_upload_iff (f : FileInfo) :
    handleFile f = UploadAction.upload ↔
      ((f.mime ∈ allowedMimes ∨ f.name.endsWith ".md" = true) ∧
        f.size ≤ 10 * 1024 * 1024) := by
  have hc : (allowedMimes.contains f.mime = true) ↔ f.mime ∈ allowedMimes :=
    @List.elem_iff _ _ _ f.mime allowedMimes
  constructor
  · intro h
    unfold handleFile at h
    by_cases h1 : (!(allowedMimes.contains f.mime) && !(f.name.endsWith ".md")) = true
    · rw [if_pos h1] at h; exact absurd h (by decide)
    · by_cases h2 : f.size > 10 * 1024 * 1024
      · rw [if_neg h1, if_pos h2] at h; exact absurd h (by decide)
      · refine ⟨?_, by omega⟩
        rcases Bool.eq_false_or_eq_true (allowedMimes.contains f.mime) with hA | hA
        · exact Or.inl (hc.mp hA)
        · rcases Bool.eq_false_or_eq_true (f.name.endsWith ".md") with hB | hB
          · exact Or.inr hB
          · exact absurd (by rw [hA, hB]; rfl) h1
  · rintro ⟨hor, hsz⟩
    unfold handleFile
    have h1 : (!(allowedMimes.contains f.mime) && !(f.name.endsWith ".md")) = false := by
      rcases hor with hA | hB
      · rw [hc.mpr hA]; simp
      · rw [hB]; simp
    rw [if_neg (fun hcT => Bool.noConfusion (h1 ▸ hcT)), if_neg (by omega)]

/-- Closed form of folding `addEvent` over an event list from arbitrary
initial totals. -/
theorem foldl_addEvent (evs : List TraceEvent) (init : TraceSummaryTotals) :
    evs.foldl addEvent init =
      ⟨init.total_events + evs.length,
        init.total_duration_ms + (evs.map (fun e => e.duration_ms.getD 0)).sum,
        init.total_tokens + (evs.map (fun e => e.tokens_in.getD 0 + e.tokens_out.getD 0)).sum,
        init.total_cost_usd + (evs.map (fun e => e.cost_usd.getD 0)).sum,
        init.has_errors || evs.any eventFailed⟩ := by
  induction evs generalizing init with
  | nil => simp
  | cons e rest ih =>
    rw [List.foldl_cons, ih]
    simp only [List.length_cons, List.map_cons, List.sum_cons, List.any_cons, addEvent]
    congr 1
    all_goals first
      | omega
      | exact add_assoc _ _ _
      | exact Bool.or_assoc _ _ _

/-- C6: `summarize` derives the event count, the plain sums of durations,
token counts and costs, and a `has_errors` flag that holds exactly when some
recorded event of the run failed. -/
theorem summarize_totals (rid : String) (r : Recorder) :
    (summarize rid r).total_events = (eventsOf rid r).length ∧
    (summarize rid r).total_duration_ms =
      ((eventsOf rid r).map (fun e => e.duration_ms.getD 0)).sum ∧
    (summarize rid r).total_tokens =
      ((eventsOf rid r).map (fun e => e.tokens_in.getD 0 + e.tokens_out.getD 0)).sum ∧
    (summarize rid r).total_cost_usd =
      ((eventsOf rid r).map (fun e => e.cost_usd.getD 0)).sum ∧
    ((summarize rid r).has_errors = true ↔ ∃ e ∈ eventsOf rid r, eventFailed e = true) := by
  unfold summarize
  rw [foldl_addEvent]
  simp [emptySummary, List.any_eq_true]

/-- C7 counterexample: under session filter "foo", a trace whose session
identifier "abc" does not contain the filter is still listed, because its run
identifier "run-foo" matches; the listing is not exactly the session-matching
traces. -/
theorem filteredTraces_not_session_only :
    filteredTraces "foo" [exampleTraceRow] = [exampleTraceRow] ∧
    claimedSessionMatch "foo" exampleTraceRow = false := by
  constructor <;> rfl

/-- C7 amended: with a nonempty session filter, exactly the traces whose
session identifier or run identifier contains the lowered filter are listed;
with an event-type filter, exactly the traces having at least one event of
that type are listed. -/
theorem traces_filter_spec (filter : String) (traces : List TraceSummaryRow)
    (t : TraceSummaryRow) (hf : filter.isEmpty = false)
    (et : EventType) (recs : List TraceRecord) (rec : TraceRecord) :
    (t ∈ filteredTraces filter traces ↔
      t ∈ traces ∧
        ((∃ sid, t.session_id = some sid ∧
            containsSub (lowerChars sid.toList) (lowerChars filter.toList) = true) ∨
          containsSub (lowerChars t.run_id.toList) (lowerChars filter.toList) = true)) ∧
    (rec ∈ listTracesByType et recs ↔
      rec ∈ recs ∧ ∃ e ∈ rec.events, e.event_type = et) := by
  constructor
  · unfold filteredTraces
    rw [if_neg (fun hT => Bool.noConfusion (hf ▸ hT))]
    rw [List.mem_filter]
    unfold traceMatches
    cases hsid : t.session_id with
    | none => simp [hsid]
    | some sid => simp [hsid]
  · unfold listTracesByType
    rw [List.mem_filter]
    simp [List.any_eq_true]

/-- C7 amended witness: the concrete trace above is listed under filter "foo"
through its run identifier, and a one-event retrieval trace is listed under
the retrieval event-type filter. -/
theorem traces_filter_spec_witness :
    (exampleTraceRow ∈ filteredTraces "foo" [exampleTraceRow] ↔
      exampleTraceRow ∈ [exampleTraceRow] ∧
        ((∃ sid, exampleTraceRow.session_id = some sid ∧
            containsSub (lowerChars sid.toList) (lowerChars "foo".toList) = true) ∨
          containsSub (lowerChars exampleTraceRow.run_id.toList)
            (lowerChars "foo".toList) = true)) ∧
    (⟨exampleTraceRow, []⟩ ∈ listTracesByType EventType.retrieval [⟨exampleTraceRow, []⟩] ↔
      (⟨exampleTraceRow, []⟩ : TraceRecord) ∈ [(⟨exampleTraceRow, []⟩ : TraceRecord)] ∧
        ∃ e ∈ ([] : List TraceEvent), e.event_type = EventType.retrieval) :=
  traces_filter_spec "foo" [exampleTraceRow] exampleTraceRow (by rfl)
    EventType.retrieval [⟨exampleTraceRow, []⟩] ⟨exampleTraceRow, []⟩

/-- C8: every transition of the EvalRun lifecycle either leaves the status in
place or follows `pending → running → (completed | failed | cancelled)`, and a
terminal status — in particular under a cancel request — never changes. -/
theorem evalStep_state_machine (s : EvalStatus) (e : EvalEvent) :
    (evalStep s e = s ∨
      (s = EvalStatus.pending ∧ evalStep s e = EvalStatus.running) ∨
      (s = EvalStatus.running ∧
        (evalStep s e = EvalStatus.completed ∨ evalStep s e = EvalStatus.failed ∨
          evalStep s e = EvalStatus.cancelled))) ∧
    (isTerminal s = true → evalStep s e = s) := by
  cases s <;> cases e <;> simp [evalStep, isTerminal]

/-- C8 witness: a cancel request against an already completed run leaves it
completed. -/
theorem evalStep_state_machine_witness :
    evalStep EvalStatus.completed EvalEvent.cancelReq = EvalStatus.completed :=
  (evalStep_state_machine EvalStatus.completed EvalEvent.cancelReq).2 (by decide)

/-- C1: every citation attached to a completed turn's message references an
evidence item that was passed to the synthesizer; citations are never
fabricated outside the retrieved evidence. -/
theorem citations_within_evidence (evidence : List RetrievedCandidate)
    (gen : GenOutcome) (res : SynthResult) (cits : List Citation) (c : Citation)
    (hok : answerTurn evidence gen = Except.ok res)
    (hcits : res.message.citations = some cits) (hmem : c ∈ cits) :
    ∃ e ∈ evidence, c.chunk_id = e.chunk_id := by
  cases gen with
  | refusal reason =>
    simp only [answerTurn, Except.ok.injEq] at hok
    rw [← hok] at hcits
    cases hcits
  | answerPieces pieces =>
    simp only [answerTurn, Except.ok.injEq] at hok
    rw [← hok] at hcits
    simp only [Option.some.injEq] at hcits
    rw [← hcits] at hmem
    unfold validCitations at hmem
    rw [List.mem_filterMap] at hmem
    obtain ⟨t, -, ht⟩ := hmem
    cases hget : evidence[t]? with
    | none => rw [hget] at ht; cases ht
    | some e =>
      rw [hget] at ht
      simp only [Option.map_some', Option.some.injEq] at ht
      exact ⟨e, List.getElem?_mem hget, by rw [← ht]; rfl⟩
  | failure err =>
    simp only [answerTurn] at hok
    cases hok

/-- C1 witness: with evidence `[evA]` and a generation citing tag 0, the
attached citation's chunk identifier is that of `evA`. -/
theorem citations_within_evidence_witness :
    ∃ e ∈ [evA], (citationOf evA).chunk_id = e.chunk_id :=
  citations_within_evidence [evA] (GenOutcome.answerPieces [("x", some 0)])
    ⟨⟨Role.assistant, "x", some [citationOf evA], false, none⟩, true⟩
    [citationOf evA] (citationOf evA) rfl rfl (List.mem_singleton.mpr rfl)

/-- C2: a refusal message carries no citations and its content is the refusal
reason, and the streamed variant of a refusal turn emits no citation events,
so a consumer's finalized citation list is empty as well. -/
theorem refusal_empty_citations (evidence : List RetrievedCandidate)
    (gen : GenOutcome) (res : SynthResult)
    (hok : answerTurn evidence gen = Except.ok res)
    (hr : res.message.is_refusal = true) :
    res.message.citations = none ∧
    res.message.refusal_reason = some res.message.content ∧
    ∀ ch ∈ streamTurn evidence gen, ch.type ≠ StreamType.citation := by
  cases gen with
  | refusal reason =>
    simp only [answerTurn, Except.ok.injEq] at hok
    rw [← hok]
    refine ⟨rfl, rfl, ?_⟩
    intro ch hch
    rcases List.mem_pair.mp hch with h | h <;> rw [h] <;> intro h2 <;> cases h2
  | answerPieces pieces =>
    simp only [answerTurn, Except.ok.injEq] at hok
    rw [← hok] at hr
    cases hr
  | failure err =>
    simp only [answerTurn] at hok
    cases hok

/-- C2 witness: a refusal turn over empty evidence produces the message
"insufficient evidence" with no citations, and its stream has no citation
events. -/
theorem refusal_empty_citations_witness :
    (⟨⟨Role.assistant, "insufficient evidence", none, true,
        some "insufficient evidence"⟩, true⟩ : SynthResult).message.citations = none ∧
    (⟨⟨Role.assistant, "insufficient evidence", none, true,
        some "insufficient evidence"⟩, true⟩ : SynthResult).message.refusal_reason =
      some (⟨⟨Role.assistant, "insufficient evidence", none, true,
        some "insufficient evidence"⟩, true⟩ : SynthResult).message.content ∧
    ∀ ch ∈ streamTurn [] (GenOutcome.refusal "insufficient evidence"),
      ch.type ≠ StreamType.citation :=
  refusal_empty_citations [] (GenOutcome.refusal "insufficient evidence")
    ⟨⟨Role.assistant, "insufficient evidence", none, true,
        some "insufficient evidence"⟩, true⟩ rfl rfl

/-- Every event of a piece is a content delta or a citation event. -/
theorem pieceEvents_types (evidence : List RetrievedCandidate)
    (p : String × Option Nat) :
    ∀ ch ∈ pieceEvents evidence p,
      ch.type = StreamType.content ∨ ch.type = StreamType.citation := by
  intro ch hch
  obtain ⟨txt, tag⟩ := p
  cases tag with
  | none =>
    simp only [pieceEvents] at hch
    rw [List.mem_singleton.mp hch]
    exact Or.inl rfl
  | some t =>
    cases hget : evidence[t]? with
    | none =>
      simp only [pieceEvents, hget] at hch
      rw [List.mem_singleton.mp hch]
      exact Or.inl rfl
    | some e =>
      simp only [pieceEvents, hget] at hch
      rcases List.mem_cons.mp hch with h | h
      · rw [h]; exact Or.inl rfl
      · rw [List.mem_singleton.mp h]; exact Or.inr rfl

/-- C3 counterexample: in a concrete two-citation turn the stream ends in the
`done` chunk, whose only citation-bearing field is empty while the finalized
citation list has two elements — the `done` event cannot and does not carry
the finalized citation list (`StreamChunk` in `types/api.ts` has no list
field). -/
theorem streamTurn_done_carries_no_list :
    streamEx.getLast? = some doneChunk ∧
    doneChunk.citation = none ∧
    (streamEx.filterMap (fun ch => ch.citation)).length = 2 := by
  refine ⟨?_, rfl, ?_⟩ <;> rfl

/-- C3 amended: a streamed turn yields only the four event kinds, and is a
run of non-terminal content/citation events followed by exactly one terminal
event — `done` on success (the finalized citation list being conveyed by the
preceding citation events), `error` on failure — after which no further
events are produced. -/
theorem streamTurn_terminal_spec (evidence : List RetrievedCandidate)
    (gen : GenOutcome) :
    streamTurn evidence gen ≠ [] ∧
    (∀ ch ∈ streamTurn evidence gen,
      ch.type = StreamType.content ∨ ch.type = StreamType.citation ∨
        ch.type = StreamType.done ∨ ch.type = StreamType.error) ∧
    (∃ pre last, streamTurn evidence gen = pre ++ [last] ∧
      (last.type = StreamType.done ∨ last.type = StreamType.error) ∧
      ∀ ch ∈ pre, ch.type ≠ StreamType.done ∧ ch.type ≠ StreamType.error) := by
  refine ⟨?_, ?_, ?_⟩
  · cases gen <;> simp [streamTurn]
  · intro ch _
    cases h : ch.type
    · exact Or.inl rfl
    · exact Or.inr (Or.inl rfl)
    · exact Or.inr (Or.inr (Or.inl rfl))
    · exact Or.inr (Or.inr (Or.inr rfl))
  · cases gen with
    | refusal reason =>
      refine ⟨[contentChunk reason], doneChunk, rfl, Or.inl rfl, ?_⟩
      intro ch hch
      rw [List.mem_singleton.mp hch]
      exact ⟨fun h => (nomatch h), fun h => (nomatch h)⟩
    | answerPieces pieces =>
      refine ⟨(pieces.map (pieceEvents evidence)).flatten, doneChunk, rfl, Or.inl rfl, ?_⟩
      intro ch hch
      obtain ⟨l, hl, hchl⟩ := List.mem_flatten.mp hch
      obtain ⟨p, -, hp⟩ := List.mem_map.mp hl
      rcases pieceEvents_types evidence p ch (hp ▸ hchl) with h | h <;>
        rw [h] <;> exact ⟨fun h2 => (nomatch h2), fun h2 => (nomatch h2)⟩
    | failure err =>
      refine ⟨[], errorChunk err, rfl, Or.inr rfl, ?_⟩
      intro ch hch
      cases hch

/-- C5: every retrieval call returns at most `rerank_top_k` candidates, with
non-increasing relevance scores, and candidates of equal score keep the order
of the upstream stage (the sort is stable); when reranking is disabled the
pass-through order is the upstream one, sorted by the index's contract. -/
theorem retrieve_spec (rerankEnabled : Bool) (k : Nat)
    (stage1 : List RetrievedCandidate)
    (hpass : rerankEnabled = false → (tagUpstream stage1).Pairwise rerankRel) :
    (retrieve rerankEnabled k stage1).length ≤ k ∧
    (retrieve rerankEnabled k stage1).Pairwise (fun a b => b.score ≤ a.score) ∧
    (retrieve rerankEnabled k stage1).Pairwise
      (fun a b => a.score = b.score → a.rank < b.rank) := by
  cases rerankEnabled with
  | false =>
    have hranked : retrieve false k stage1 = (tagUpstream stage1).take k := by
      unfold retrieve
      simp
    rw [hranked]
    refine rankedTake_props _ k (hpass rfl) ?_
    rw [tagUpstream_ranks]
    exact List.nodup_range _
  | true =>
    have hranked : retrieve true k stage1 =
        (List.insertionSort rerankRel (tagUpstream stage1)).take k := by
      unfold retrieve
      simp
    rw [hranked]
    refine rankedTake_props _ k (List.sorted_insertionSort rerankRel _) ?_
    have hperm :=
      (List.perm_insertionSort rerankRel (tagUpstream stage1)).map
        (fun c : RetrievedCandidate => c.rank)
    rw [List.Perm.nodup_iff hperm, tagUpstream_ranks]
    exact List.nodup_range _

/-- C5 witness: a reranked two-candidate retrieval with `rerank_top_k = 2`
satisfies the bound, the score ordering and the stable tie-break. -/
theorem retrieve_spec_witness :
    (retrieve true 2 [evA, evB]).length ≤ 2 ∧
    (retrieve true 2 [evA, evB]).Pairwise (fun a b => b.score ≤ a.score) ∧
    (retrieve true 2 [evA, evB]).Pairwise
      (fun a b => a.score = b.score → a.rank < b.rank) :=
  retrieve_spec true 2 [evA, evB] (fun h => Bool.noConfusion h)

/-- C3 amended witness: the concrete two-citation stream satisfies the
terminal-structure property. -/
theorem streamTurn_terminal_spec_witness :
    streamEx ≠ [] ∧
    (∀ ch ∈ streamEx,
      ch.type = StreamType.content ∨ ch.type = StreamType.citation ∨
        ch.type = StreamType.done ∨ ch.type = StreamType.error) ∧
    (∃ pre last, streamEx = pre ++ [last] ∧
      (last.type = StreamType.done ∨ last.type = StreamType.error) ∧
      ∀ ch ∈ pre, ch.type ≠ StreamType.done ∧ ch.type ≠ StreamType.error) :=
  streamTurn_terminal_spec [evA, evB]
    (GenOutcome.answerPieces [("a", some 0), ("b", some 1)])

end RagOps
